import Mathlib

/-!
Shallow embedding of the streaming core of the `ndi-bridge-linux` repository:
the on-wire packet protocol (`src/common/Protocol.{h,cpp}`), the fragmenting
UDP sender (`src/network/NetworkSender.cpp`), the frame reassembler
(`src/common/Protocol.cpp`), the bounded drop-oldest queues
(`src/host/HostMode.cpp`, `src/join/JoinMode.cpp`) and the buffered playout
scheduler (`src/join/JoinMode.cpp`).

Machine integers are modelled as `Nat` with explicit `% 2^w` at the points
where the C++ code performs a narrowing cast; byte buffers are `List Nat`.
-/

namespace NdiBridge

/-! ## Protocol constants (src/common/Protocol.h, lines 37-45) -/

def PROTOCOL_MAGIC : Nat := 0x4E444942
def PROTOCOL_VERSION : Nat := 2
def HEADER_SIZE : Nat := 38
def DEFAULT_MTU : Nat := 1200
def MAX_UDP_PAYLOAD : Nat := DEFAULT_MTU - HEADER_SIZE

/-! ## PacketHeader (src/common/Protocol.h, lines 59-79)

All fields are fixed-width unsigned integers in the C++ struct; here they are
`Nat` together with the well-formedness predicate `PacketHeader.WF` stating
that each field fits its declared width.  The three reserved bytes are
modelled as individual fields, as in `uint8_t reserved[3]`. -/

structure PacketHeader where
  magic : Nat
  version : Nat
  mediaType : Nat
  sourceId : Nat
  flags : Nat
  sequenceNumber : Nat
  timestamp : Nat
  totalSize : Nat
  fragmentIndex : Nat
  fragmentCount : Nat
  payloadSize : Nat
  sampleRate : Nat
  channels : Nat
  reserved0 : Nat
  reserved1 : Nat
  reserved2 : Nat
  deriving Repr, DecidableEq, Inhabited

def PacketHeader.WF (h : PacketHeader) : Prop :=
  h.magic < 2^32 ∧ h.version < 2^8 ∧ h.mediaType < 2^8 ∧ h.sourceId < 2^8 ∧
  h.flags < 2^8 ∧ h.sequenceNumber < 2^32 ∧ h.timestamp < 2^64 ∧
  h.totalSize < 2^32 ∧ h.fragmentIndex < 2^16 ∧ h.fragmentCount < 2^16 ∧
  h.payloadSize < 2^16 ∧ h.sampleRate < 2^32 ∧ h.channels < 2^8 ∧
  h.reserved0 < 2^8 ∧ h.reserved1 < 2^8 ∧ h.reserved2 < 2^8

instance (h : PacketHeader) : Decidable h.WF := by
  unfold PacketHeader.WF; infer_instance

/-! ## Big-endian byte encoding

`Protocol::serializeInto` converts each multi-byte field with `hton*` and
`memcpy`s it at a fixed offset, producing big-endian bytes on the wire; we
model the resulting byte values directly. -/

def be16 (v : Nat) : List Nat := [v / 2^8 % 256, v % 256]

def be32 (v : Nat) : List Nat :=
  [v / 2^24 % 256, v / 2^16 % 256, v / 2^8 % 256, v % 256]

def be64 (v : Nat) : List Nat :=
  [v / 2^56 % 256, v / 2^48 % 256, v / 2^40 % 256, v / 2^32 % 256,
   v / 2^24 % 256, v / 2^16 % 256, v / 2^8 % 256, v % 256]

def rd16 (b0 b1 : Nat) : Nat := b0 * 2^8 + b1

def rd32 (b0 b1 b2 b3 : Nat) : Nat :=
  b0 * 2^24 + b1 * 2^16 + b2 * 2^8 + b3

def rd64 (b0 b1 b2 b3 b4 b5 b6 b7 : Nat) : Nat :=
  b0 * 2^56 + b1 * 2^48 + b2 * 2^40 + b3 * 2^32 +
  b4 * 2^24 + b5 * 2^16 + b6 * 2^8 + b7

/-! ## Protocol.serialize / Protocol.deserialize (src/common/Protocol.cpp, 63-154) -/

/-- `Protocol::serializeInto` / `Protocol::serialize`: the 38-byte wire image,
field by field at the documented offsets; the reserved region is zeroed
(`memset(buffer + 35, 0, 3)`). -/
def Protocol.serialize (h : PacketHeader) : List Nat :=
  be32 h.magic ++
  [h.version, h.mediaType, h.sourceId, h.flags] ++
  be32 h.sequenceNumber ++
  be64 h.timestamp ++
  be32 h.totalSize ++
  be16 h.fragmentIndex ++
  be16 h.fragmentCount ++
  be16 h.payloadSize ++
  be32 h.sampleRate ++
  [h.channels, 0, 0, 0]

/-- `Protocol::deserialize(data, size)`: fails when fewer than 38 bytes are
available, when the magic differs from `PROTOCOL_MAGIC`, or when the version
differs from `PROTOCOL_VERSION`; otherwise reads every field back and zeroes
the reserved bytes (`memset(header.reserved, 0, 3)`). -/
def Protocol.deserialize (data : List Nat) : Option PacketHeader :=
  if data.length < HEADER_SIZE then none
  else
    let magic := rd32 (data.getD 0 0) (data.getD 1 0) (data.getD 2 0) (data.getD 3 0)
    if magic ≠ PROTOCOL_MAGIC then none
    else
      let version := data.getD 4 0
      if version ≠ PROTOCOL_VERSION then none
      else some
        { magic := magic
          version := version
          mediaType := data.getD 5 0
          sourceId := data.getD 6 0
          flags := data.getD 7 0
          sequenceNumber := rd32 (data.getD 8 0) (data.getD 9 0) (data.getD 10 0) (data.getD 11 0)
          timestamp := rd64 (data.getD 12 0) (data.getD 13 0) (data.getD 14 0) (data.getD 15 0)
                            (data.getD 16 0) (data.getD 17 0) (data.getD 18 0) (data.getD 19 0)
          totalSize := rd32 (data.getD 20 0) (data.getD 21 0) (data.getD 22 0) (data.getD 23 0)
          fragmentIndex := rd16 (data.getD 24 0) (data.getD 25 0)
          fragmentCount := rd16 (data.getD 26 0) (data.getD 27 0)
          payloadSize := rd16 (data.getD 28 0) (data.getD 29 0)
          sampleRate := rd32 (data.getD 30 0) (data.getD 31 0) (data.getD 32 0) (data.getD 33 0)
          channels := data.getD 34 0
          reserved0 := 0
          reserved1 := 0
          reserved2 := 0 }

/-- `Protocol::isValid` (src/common/Protocol.cpp, 156-161). -/
def Protocol.isValid (h : PacketHeader) : Bool :=
  h.magic == PROTOCOL_MAGIC && h.version == PROTOCOL_VERSION &&
  decide (h.fragmentIndex < h.fragmentCount) &&
  decide (h.payloadSize ≤ MAX_UDP_PAYLOAD)

/-- `NetworkReceiver::processPacket` (src/network/NetworkReceiver.cpp, 195-232):
the receiver deserializes and then applies `Protocol::isValid`; a packet
failing either step is counted invalid and dropped before reaching the
reassembler. -/
def NetworkReceiver.decodeValidated (data : List Nat) : Option PacketHeader :=
  match Protocol.deserialize data with
  | none => none
  | some h => if Protocol.isValid h then some h else none

/-! ## Big-endian recombination lemmas -/

theorem rd16_be (v : Nat) (hv : v < 2^16) : rd16 (v / 2^8 % 256) (v % 256) = v := by
  unfold rd16; omega

theorem rd32_be (v : Nat) (hv : v < 2^32) :
    rd32 (v / 2^24 % 256) (v / 2^16 % 256) (v / 2^8 % 256) (v % 256) = v := by
  unfold rd32; omega

theorem rd64_be (v : Nat) (hv : v < 2^64) :
    rd64 (v / 2^56 % 256) (v / 2^48 % 256) (v / 2^40 % 256) (v / 2^32 % 256)
         (v / 2^24 % 256) (v / 2^16 % 256) (v / 2^8 % 256) (v % 256) = v := by
  unfold rd64; omega

theorem serialize_as_bytes (h : PacketHeader) :
    Protocol.serialize h =
      [h.magic / 2^24 % 256, h.magic / 2^16 % 256, h.magic / 2^8 % 256, h.magic % 256,
       h.version, h.mediaType, h.sourceId, h.flags,
       h.sequenceNumber / 2^24 % 256, h.sequenceNumber / 2^16 % 256,
       h.sequenceNumber / 2^8 % 256, h.sequenceNumber % 256,
       h.timestamp / 2^56 % 256, h.timestamp / 2^48 % 256, h.timestamp / 2^40 % 256,
       h.timestamp / 2^32 % 256, h.timestamp / 2^24 % 256, h.timestamp / 2^16 % 256,
       h.timestamp / 2^8 % 256, h.timestamp % 256,
       h.totalSize / 2^24 % 256, h.totalSize / 2^16 % 256, h.totalSize / 2^8 % 256,
       h.totalSize % 256,
       h.fragmentIndex / 2^8 % 256, h.fragmentIndex % 256,
       h.fragmentCount / 2^8 % 256, h.fragmentCount % 256,
       h.payloadSize / 2^8 % 256, h.payloadSize % 256,
       h.sampleRate / 2^24 % 256, h.sampleRate / 2^16 % 256, h.sampleRate / 2^8 % 256,
       h.sampleRate % 256,
       h.channels, 0, 0, 0] := rfl

/-- C1 — Header round-trip: for every packet header whose fields lie within the
documented ranges (magic = 0x4E444942, version = 2, reserved bytes zeroed, each
remaining field any value of its fixed-width type), deserializing the 38-byte
serialization returns exactly the original header. -/
theorem protocol_header_roundtrip
    (mediaType sourceId flags sequenceNumber timestamp totalSize
     fragmentIndex fragmentCount payloadSize sampleRate channels : Nat)
    (hmt : mediaType < 2^8) (hsid : sourceId < 2^8) (hfl : flags < 2^8)
    (hsq : sequenceNumber < 2^32) (hts : timestamp < 2^64) (htot : totalSize < 2^32)
    (hfi : fragmentIndex < 2^16) (hfc : fragmentCount < 2^16) (hps : payloadSize < 2^16)
    (hsr : sampleRate < 2^32) (hch : channels < 2^8) :
    Protocol.deserialize (Protocol.serialize
      ⟨PROTOCOL_MAGIC, PROTOCOL_VERSION, mediaType, sourceId, flags, sequenceNumber,
       timestamp, totalSize, fragmentIndex, fragmentCount, payloadSize, sampleRate,
       channels, 0, 0, 0⟩) = some
      ⟨PROTOCOL_MAGIC, PROTOCOL_VERSION, mediaType, sourceId, flags, sequenceNumber,
       timestamp, totalSize, fragmentIndex, fragmentCount, payloadSize, sampleRate,
       channels, 0, 0, 0⟩ := by
  rw [serialize_as_bytes]
  simp only []
  norm_num [Protocol.deserialize, List.getD, PROTOCOL_MAGIC, PROTOCOL_VERSION,
    HEADER_SIZE, rd16, rd32, rd64]
  omega

/-- C1 witness: the round-trip theorem applied at a concrete header. -/
theorem protocol_header_roundtrip_witness :
    Protocol.deserialize (Protocol.serialize
      { magic := PROTOCOL_MAGIC, version := PROTOCOL_VERSION, mediaType := 0,
        sourceId := 0, flags := 1, sequenceNumber := 3735928559,
        timestamp := 81985529216486895, totalSize := 2724, fragmentIndex := 1,
        fragmentCount := 2, payloadSize := 1162, sampleRate := 48000,
        channels := 2, reserved0 := 0, reserved1 := 0, reserved2 := 0 }) = some
      { magic := PROTOCOL_MAGIC, version := PROTOCOL_VERSION, mediaType := 0,
        sourceId := 0, flags := 1, sequenceNumber := 3735928559,
        timestamp := 81985529216486895, totalSize := 2724, fragmentIndex := 1,
        fragmentCount := 2, payloadSize := 1162, sampleRate := 48000,
        channels := 2, reserved0 := 0, reserved1 := 0, reserved2 := 0 } :=
  protocol_header_roundtrip 0 0 1 3735928559 81985529216486895 2724 1 2 1162 48000 2
    (by decide) (by decide) (by decide) (by decide) (by decide) (by decide)
    (by decide) (by decide) (by decide) (by decide) (by decide)

/-! ## C5: header decode validation -/

/-- A 38-byte datagram with correct magic and version whose `fragmentIndex`
(= 5) is not below its `fragmentCount` (= 2). -/
def c5BadInput : List Nat :=
  [0x4E, 0x44, 0x49, 0x42, 2, 0, 0, 0,
   0, 0, 0, 1,
   0, 0, 0, 0, 0, 0, 0, 0,
   0, 0, 0, 100,
   0, 5, 0, 2, 0, 50,
   0, 0, 0, 0, 0,
   0, 0, 0]

def c5BadHeader : PacketHeader :=
  { magic := PROTOCOL_MAGIC, version := PROTOCOL_VERSION, mediaType := 0,
    sourceId := 0, flags := 0, sequenceNumber := 1, timestamp := 0,
    totalSize := 100, fragmentIndex := 5, fragmentCount := 2, payloadSize := 50,
    sampleRate := 0, channels := 0, reserved0 := 0, reserved1 := 0, reserved2 := 0 }

/-- C5 counterexample: `Protocol::deserialize` succeeds on a 38-byte input whose
`fragmentIndex` (5) is not below its `fragmentCount` (2) — the §3 invariant
checks are not performed by `deserialize` itself. -/
theorem deserialize_accepts_bad_fragment_index :
    Protocol.deserialize c5BadInput = some c5BadHeader ∧
    c5BadHeader.fragmentCount ≤ c5BadHeader.fragmentIndex := by decide

/-- C5 (amended) — the deserialize-then-`isValid` pipeline that
`NetworkReceiver::processPacket` runs accepts a datagram exactly when every §3
invariant holds on the raw bytes: at least 38 bytes, magic 0x4E444942 at
offset 0, version 2 at offset 4, big-endian `fragmentIndex` (offset 24) below
`fragmentCount` (offset 26), and `payloadSize` (offset 28) at most MTU − 38;
`deserialize` alone rejects only truncated input, bad magic and bad version. -/
theorem decodeValidated_characterization (data : List Nat) :
    (NetworkReceiver.decodeValidated data).isSome =
      (decide (HEADER_SIZE ≤ data.length) &&
       (rd32 (data.getD 0 0) (data.getD 1 0) (data.getD 2 0) (data.getD 3 0)
         == PROTOCOL_MAGIC) &&
       (data.getD 4 0 == PROTOCOL_VERSION) &&
       decide (rd16 (data.getD 24 0) (data.getD 25 0) <
               rd16 (data.getD 26 0) (data.getD 27 0)) &&
       decide (rd16 (data.getD 28 0) (data.getD 29 0) ≤ MAX_UDP_PAYLOAD)) := by
  unfold NetworkReceiver.decodeValidated Protocol.deserialize
  simp only [List.getD_eq_getElem?_getD]
  by_cases h1 : data.length < HEADER_SIZE
  · simp [h1, decide_eq_false (by omega : ¬ (HEADER_SIZE ≤ data.length))]
  · by_cases h2 : rd32 (data[0]?.getD 0) (data[1]?.getD 0) (data[2]?.getD 0) (data[3]?.getD 0)
        = PROTOCOL_MAGIC
    · by_cases h3 : data[4]?.getD 0 = PROTOCOL_VERSION
      · simp [h1, h2, h3, Protocol.isValid,
          decide_eq_true (by omega : HEADER_SIZE ≤ data.length), Bool.and_assoc]
        by_cases h4 : rd16 (data[24]?.getD 0) (data[25]?.getD 0) <
            rd16 (data[26]?.getD 0) (data[27]?.getD 0) <;>
          by_cases h5 : rd16 (data[28]?.getD 0) (data[29]?.getD 0) ≤ MAX_UDP_PAYLOAD <;>
            simp [h4, h5]
      · simp [h1, h2, h3, decide_eq_true (by omega : HEADER_SIZE ≤ data.length)]
    · simp [h1, h2]

/-! ## NetworkSender (src/network/NetworkSender.{h,cpp})

`sendPacket` performs one non-blocking `send`; the kernel's response is
abstracted as a `SendOutcome` oracle indexed by fragment number.  Per
src/network/NetworkSender.cpp 227-254: EAGAIN/EWOULDBLOCK returns success
with no statistics change, a hard error bumps `sendErrors` and fails, a
successful send bumps `bytesSent` and `packetsSent`. -/

/-- `NetworkSenderConfig` (src/network/NetworkSender.h, 22-26).  The `mtu`
field defaults to 1400 and is never read by the send path. -/
structure NetworkSenderConfig where
  port : Nat := 5990
  mtu : Nat := 1400
  deriving Repr, DecidableEq

/-- `NetworkSenderStats` (src/network/NetworkSender.h, 31-36): these four
fields are the only sender counters. -/
structure NetworkSenderStats where
  bytesSent : Nat := 0
  packetsSent : Nat := 0
  framesSent : Nat := 0
  sendErrors : Nat := 0
  deriving Repr, DecidableEq, Inhabited

/-- Result of one non-blocking `send(2)` call on the UDP socket. -/
inductive SendOutcome where
  | sent
  | eagain
  | hardError
  deriving Repr, DecidableEq

/-- `NetworkSender::sendPacket` (src/network/NetworkSender.cpp, 227-254). -/
def NetworkSender.sendPacket (stats : NetworkSenderStats) (outcome : SendOutcome)
    (size : Nat) : Bool × NetworkSenderStats :=
  match outcome with
  | .eagain => (true, stats)
  | .hardError => (false, { stats with sendErrors := stats.sendErrors + 1 })
  | .sent => (true, { stats with bytesSent := stats.bytesSent + size,
                                 packetsSent := stats.packetsSent + 1 })

/-- `Protocol::calculateFragmentCount` (src/common/Protocol.cpp, 185-187);
the result is cast to `uint16_t`. -/
def Protocol.calculateFragmentCount (totalSize : Nat) : Nat :=
  ((totalSize + MAX_UDP_PAYLOAD - 1) / MAX_UDP_PAYLOAD) % 2^16

/-- `Protocol::createVideoHeader` (src/common/Protocol.cpp, 8-33). -/
def Protocol.createVideoHeader (sequenceNumber timestamp totalSize fragmentIndex
    fragmentCount payloadSize : Nat) (isKeyframe : Bool) : PacketHeader :=
  { magic := PROTOCOL_MAGIC, version := PROTOCOL_VERSION, mediaType := 0,
    sourceId := 0, flags := if isKeyframe then 1 else 0,
    sequenceNumber := sequenceNumber, timestamp := timestamp,
    totalSize := totalSize, fragmentIndex := fragmentIndex,
    fragmentCount := fragmentCount, payloadSize := payloadSize,
    sampleRate := 0, channels := 0, reserved0 := 0, reserved1 := 0, reserved2 := 0 }

/-- One loop iteration of `NetworkSender::sendVideo`
(src/network/NetworkSender.cpp, 128-147): the header plus the payload slice
`[i·P, i·P + payloadSize)` of the frame, `P = MAX_UDP_PAYLOAD`.  The payload
slice arithmetic uses the `size_t` frame length; the header's `totalSize`
carries the `uint32_t` cast `size32`. -/
def mkVideoFragment (frame : List Nat) (size32 seq ts : Nat) (isKey : Bool)
    (fragmentCount i : Nat) : PacketHeader × List Nat :=
  let offset := i * MAX_UDP_PAYLOAD
  let payloadSize := min MAX_UDP_PAYLOAD (frame.length - offset)
  (Protocol.createVideoHeader seq ts size32 i fragmentCount payloadSize isKey,
   (frame.drop offset).take payloadSize)

/-- The fragment loop of `NetworkSender::sendVideo`
(src/network/NetworkSender.cpp, 128-158): build each fragment, send it, abort
returning false on a failed send.  The third component collects the datagrams
handed to `send`. -/
def NetworkSender.sendFragments (oracle : Nat → SendOutcome) (frame : List Nat)
    (size32 seq ts : Nat) (isKey : Bool) (fragmentCount : Nat)
    (stats : NetworkSenderStats) :
    List Nat → Bool × NetworkSenderStats × List (PacketHeader × List Nat)
  | [] => (true, stats, [])
  | i :: rest =>
    let pkt := mkVideoFragment frame size32 seq ts isKey fragmentCount i
    let res := sendPacket stats (oracle i) (HEADER_SIZE + pkt.2.length)
    if res.1 then
      let r := sendFragments oracle frame size32 seq ts isKey fragmentCount res.2 rest
      (r.1, r.2.1, pkt :: r.2.2)
    else (false, res.2, [pkt])

/-- `NetworkSender::sendVideo` (src/network/NetworkSender.cpp, 115-166): casts
the frame size to `uint32_t`, derives the fragment count with the constant
`MAX_UDP_PAYLOAD` (the `config` member's `mtu` is not consulted), loops over
all fragments, and bumps `framesSent` when every send succeeded. -/
def NetworkSender.sendVideo (config : NetworkSenderConfig) (oracle : Nat → SendOutcome)
    (frame : List Nat) (seq ts : Nat) (isKey : Bool) (stats : NetworkSenderStats) :
    Bool × NetworkSenderStats × List (PacketHeader × List Nat) :=
  let size32 := frame.length % 2^32
  let fragmentCount := Protocol.calculateFragmentCount size32
  let r := sendFragments oracle frame size32 seq ts isKey fragmentCount stats
    (List.range fragmentCount)
  if r.1 then (true, { r.2.1 with framesSent := r.2.1.framesSent + 1 }, r.2.2)
  else r

/-! ## Fragmentation coverage -/

/-- The payload slice of fragment `i`, exactly as the `sendVideo` loop cuts it. -/
def payloadSlice (l : List Nat) (P i : Nat) : List Nat :=
  (l.drop (i * P)).take (min P (l.length - i * P))

theorem payloadSlice_shift (l : List Nat) (P i : Nat) :
    payloadSlice l P (i + 1) = payloadSlice (l.drop P) P i := by
  unfold payloadSlice
  rw [List.drop_drop, List.length_drop]
  have h1 : P + i * P = (i + 1) * P := by ring
  have h2 : l.length - P - i * P = l.length - (i + 1) * P := by
    have h3 : (i + 1) * P = i * P + P := by ring
    omega
  rw [h1, h2]

/-- Concatenating the `n` payload slices of a frame of length at most `n·P`
reproduces the frame. -/
theorem payloadSlices_flatten (P : Nat) :
    ∀ (n : Nat) (l : List Nat), l.length ≤ n * P →
      ((List.range n).map (payloadSlice l P)).flatten = l := by
  intro n
  induction n with
  | zero =>
    intro l hl
    simp only [Nat.zero_mul, Nat.le_zero] at hl
    simp [List.length_eq_zero.mp hl]
  | succ n ih =>
    intro l hl
    rw [List.range_succ_eq_map, List.map_cons, List.map_map, List.flatten_cons]
    have hmap : (List.range n).map (payloadSlice l P ∘ Nat.succ) =
        (List.range n).map (payloadSlice (l.drop P) P) :=
      List.map_congr_left (fun i _ => payloadSlice_shift l P i)
    rw [hmap, ih (l.drop P)
      (by rw [List.length_drop]; have h : (n + 1) * P = n * P + P := by ring
          omega)]
    unfold payloadSlice
    simp only [Nat.zero_mul, List.drop_zero, Nat.sub_zero]
    rcases le_or_lt P l.length with h | h
    · rw [min_eq_left h, List.take_append_drop]
    · rw [min_eq_right (le_of_lt h), List.take_length,
        List.drop_eq_nil_of_le (le_of_lt h), List.append_nil]

theorem sendFragments_no_hard_error (oracle : Nat → SendOutcome)
    (hor : ∀ i, oracle i ≠ SendOutcome.hardError)
    (frame : List Nat) (size32 seq ts : Nat) (isKey : Bool) (fc : Nat) :
    ∀ (is : List Nat) (stats : NetworkSenderStats),
      (NetworkSender.sendFragments oracle frame size32 seq ts isKey fc stats is).1 = true ∧
      (NetworkSender.sendFragments oracle frame size32 seq ts isKey fc stats is).2.2 =
        is.map (mkVideoFragment frame size32 seq ts isKey fc) := by
  intro is
  induction is with
  | nil => intro stats; exact ⟨rfl, rfl⟩
  | cons i rest ih =>
    intro stats
    unfold NetworkSender.sendFragments
    rcases ho : oracle i with _ | _ | _
    · simp only [ho, NetworkSender.sendPacket, if_pos]
      exact ⟨(ih _).1, by rw [List.map_cons]; exact congrArg _ (ih _).2⟩
    · simp only [ho, NetworkSender.sendPacket, if_pos]
      exact ⟨(ih _).1, by rw [List.map_cons]; exact congrArg _ (ih _).2⟩
    · exact absurd ho (hor i)

/-- C2 (amended) — Fragmentation coverage at the implementation's payload
size: `sendVideo` always fragments with payload `P = DEFAULT_MTU − 38 = 1162`
bytes (the configured `mtu` is not consulted); for every frame whose size and
fragment count survive the `uint32_t`/`uint16_t` casts it emits exactly
⌈totalSize/P⌉ datagrams, the i-th carrying bytes `[i·P, i·P + payloadSize)` of
the frame with `fragmentIndex = i`, and concatenating the payloads in
`fragmentIndex` order reconstructs the frame exactly. -/
theorem sendVideo_fragmentation (config : NetworkSenderConfig) (frame : List Nat)
    (seq ts : Nat) (isKey : Bool) (stats : NetworkSenderStats)
    (hlen : frame.length < 2^32)
    (hfrag : (frame.length + MAX_UDP_PAYLOAD - 1) / MAX_UDP_PAYLOAD < 2^16) :
    (NetworkSender.sendVideo config (fun _ => SendOutcome.sent) frame seq ts isKey stats).1
        = true ∧
    (NetworkSender.sendVideo config (fun _ => SendOutcome.sent) frame seq ts isKey
        stats).2.2.length = (frame.length + MAX_UDP_PAYLOAD - 1) / MAX_UDP_PAYLOAD ∧
    (∀ i, i < (NetworkSender.sendVideo config (fun _ => SendOutcome.sent) frame seq ts isKey
        stats).2.2.length →
      ((NetworkSender.sendVideo config (fun _ => SendOutcome.sent) frame seq ts isKey
          stats).2.2.getD i default).1.fragmentIndex = i ∧
      ((NetworkSender.sendVideo config (fun _ => SendOutcome.sent) frame seq ts isKey
          stats).2.2.getD i default).2 = payloadSlice frame MAX_UDP_PAYLOAD i) ∧
    ((NetworkSender.sendVideo config (fun _ => SendOutcome.sent) frame seq ts isKey
        stats).2.2.map Prod.snd).flatten = frame := by
  have hsz : frame.length % 2^32 = frame.length := Nat.mod_eq_of_lt hlen
  have hcalc : Protocol.calculateFragmentCount frame.length =
      (frame.length + MAX_UDP_PAYLOAD - 1) / MAX_UDP_PAYLOAD := by
    unfold Protocol.calculateFragmentCount
    exact Nat.mod_eq_of_lt hfrag
  unfold NetworkSender.sendVideo
  dsimp only
  rw [hsz, hcalc]
  have h := sendFragments_no_hard_error (fun _ => SendOutcome.sent)
    (by intro i; simp) frame frame.length seq ts isKey
    ((frame.length + MAX_UDP_PAYLOAD - 1) / MAX_UDP_PAYLOAD)
    (List.range ((frame.length + MAX_UDP_PAYLOAD - 1) / MAX_UDP_PAYLOAD)) stats
  rw [h.1, if_pos rfl, h.2]
  refine ⟨rfl, by simp, ?_, ?_⟩
  · intro i hi
    simp only [List.length_map, List.length_range] at hi
    have hget : ((List.range ((frame.length + MAX_UDP_PAYLOAD - 1) / MAX_UDP_PAYLOAD)).map
        (mkVideoFragment frame frame.length seq ts isKey
          ((frame.length + MAX_UDP_PAYLOAD - 1) / MAX_UDP_PAYLOAD))).getD i default =
        mkVideoFragment frame frame.length seq ts isKey
          ((frame.length + MAX_UDP_PAYLOAD - 1) / MAX_UDP_PAYLOAD) i := by
      rw [List.getD_eq_getElem _ _ (by simpa using hi), List.getElem_map, List.getElem_range]
    rw [hget]
    exact ⟨rfl, rfl⟩
  · rw [List.map_map]
    have hmap : (List.range ((frame.length + MAX_UDP_PAYLOAD - 1) / MAX_UDP_PAYLOAD)).map
        (Prod.snd ∘ mkVideoFragment frame frame.length seq ts isKey
          ((frame.length + MAX_UDP_PAYLOAD - 1) / MAX_UDP_PAYLOAD)) =
        (List.range ((frame.length + MAX_UDP_PAYLOAD - 1) / MAX_UDP_PAYLOAD)).map
          (payloadSlice frame MAX_UDP_PAYLOAD) :=
      List.map_congr_left (fun i _ => rfl)
    rw [hmap]
    refine payloadSlices_flatten MAX_UDP_PAYLOAD _ frame ?_
    have hP : MAX_UDP_PAYLOAD = 1162 := rfl
    rw [hP]
    omega

/-- C2 witness: the fragmentation theorem applied to a concrete 3-byte frame;
its single emitted payload flattens back to the frame. -/
theorem sendVideo_fragmentation_witness :
    ((NetworkSender.sendVideo ⟨5990, 1400⟩ (fun _ => SendOutcome.sent)
        [7, 8, 9] 1 0 true ⟨0, 0, 0, 0⟩).2.2.map Prod.snd).flatten = [7, 8, 9] :=
  (sendVideo_fragmentation ⟨5990, 1400⟩ [7, 8, 9] 1 0 true ⟨0, 0, 0, 0⟩
    (by decide) (by decide)).2.2.2

/-- C2 counterexample: with the configured `mtu = 1400` (its default value), a
1163-byte frame goes out as 2 datagrams although ⌈1163/(1400−38)⌉ = 1 — the
sender ignores the configured mtu and always cuts `DEFAULT_MTU − 38 = 1162`
byte payloads. -/
theorem sendVideo_mtu_counterexample :
    (NetworkSender.sendVideo ⟨5990, 1400⟩ (fun _ => SendOutcome.sent)
        (List.replicate 1163 0) 1 0 false ⟨0, 0, 0, 0⟩).2.2.length = 2 ∧
    (1163 + (1400 - 38) - 1) / (1400 - 38) = 1 := by
  have h := sendFragments_no_hard_error (fun _ => SendOutcome.sent)
    (by intro i; simp) (List.replicate 1163 0) ((List.replicate 1163 0).length % 2^32)
    1 0 false (Protocol.calculateFragmentCount ((List.replicate 1163 0).length % 2^32))
    (List.range (Protocol.calculateFragmentCount ((List.replicate 1163 0).length % 2^32)))
    ⟨0, 0, 0, 0⟩
  constructor
  · unfold NetworkSender.sendVideo
    dsimp only
    rw [h.1, if_pos rfl, h.2]
    simp only [List.length_map, List.length_range]
    norm_num [List.length_replicate, Protocol.calculateFragmentCount,
      MAX_UDP_PAYLOAD, DEFAULT_MTU, HEADER_SIZE]
  · decide

/-- C6 (amended) — EAGAIN as successful drop, with no drop counter: a
fragment send ending in EAGAIN/EWOULDBLOCK returns success and leaves the
sender statistics — whose only fields are bytesSent, packetsSent, framesSent
and sendErrors — entirely unchanged, and a `sendVideo` whose sends all end in
success or EAGAIN still attempts every fragment of the frame and returns
success. -/
theorem eagain_successful_drop (stats : NetworkSenderStats) (size : Nat)
    (config : NetworkSenderConfig) (oracle : Nat → SendOutcome) (frame : List Nat)
    (seq ts : Nat) (isKey : Bool)
    (hor : ∀ i, oracle i ≠ SendOutcome.hardError) :
    NetworkSender.sendPacket stats SendOutcome.eagain size = (true, stats) ∧
    (NetworkSender.sendVideo config oracle frame seq ts isKey stats).1 = true ∧
    (NetworkSender.sendVideo config oracle frame seq ts isKey stats).2.2.length =
      Protocol.calculateFragmentCount (frame.length % 2^32) := by
  have h := sendFragments_no_hard_error oracle hor frame (frame.length % 2^32) seq ts isKey
    (Protocol.calculateFragmentCount (frame.length % 2^32))
    (List.range (Protocol.calculateFragmentCount (frame.length % 2^32))) stats
  refine ⟨rfl, ?_, ?_⟩
  · unfold NetworkSender.sendVideo
    dsimp only
    rw [h.1, if_pos rfl]
  · unfold NetworkSender.sendVideo
    dsimp only
    rw [h.1, if_pos rfl, h.2]
    simp

/-- C6 witness: the EAGAIN theorem applied with an all-EAGAIN oracle to a
two-fragment frame. -/
theorem eagain_successful_drop_witness :
    NetworkSender.sendPacket ⟨3, 2, 1, 0⟩ SendOutcome.eagain 1200 = (true, ⟨3, 2, 1, 0⟩) ∧
    (NetworkSender.sendVideo ⟨5990, 1400⟩ (fun _ => SendOutcome.eagain)
        (List.replicate 1200 0) 1 0 false ⟨3, 2, 1, 0⟩).1 = true ∧
    (NetworkSender.sendVideo ⟨5990, 1400⟩ (fun _ => SendOutcome.eagain)
        (List.replicate 1200 0) 1 0 false ⟨3, 2, 1, 0⟩).2.2.length =
      Protocol.calculateFragmentCount ((List.replicate 1200 0).length % 2^32) :=
  eagain_successful_drop ⟨3, 2, 1, 0⟩ 1200 ⟨5990, 1400⟩ (fun _ => SendOutcome.eagain)
    (List.replicate 1200 0) 1 0 false (by intro i; simp)

/-- C6 counterexample: the claimed `packetsDroppedEagain` counter does not
exist; an EAGAIN drop returns success with the statistics record — all four
sender counters — unchanged. -/
theorem eagain_increments_no_counter :
    NetworkSender.sendPacket ⟨10, 5, 2, 1⟩ SendOutcome.eagain 1200 =
      (true, ⟨10, 5, 2, 1⟩) := rfl

/-! ## FrameReassembler (src/common/Protocol.{h,cpp})

One reassembler per media type; at most one in-flight `PendingFrame`. -/

/-- `FrameReassembler::Stats`.  The header's declaration (Protocol.h 229-234)
lists only the first four fields; the implementation (Protocol.cpp 214-216)
also maintains the two before-drop fragment counters, which we include since
the .cpp is what defines the behaviour. -/
structure FrameReassembler.Stats where
  framesCompleted : Nat := 0
  framesDropped : Nat := 0
  packetsReceived : Nat := 0
  packetsDuplicate : Nat := 0
  totalFragmentsReceivedBeforeDrop : Nat := 0
  totalFragmentsExpectedBeforeDrop : Nat := 0
  deriving Repr, DecidableEq, Inhabited

/-- `FrameReassembler::Frame` (Protocol.h 203-211); `type` is the raw
mediaType byte. -/
structure FrameReassembler.Frame where
  type : Nat
  sequenceNumber : Nat
  timestamp : Nat
  data : List Nat
  isKeyframe : Bool
  sampleRate : Nat
  channels : Nat
  deriving Repr, DecidableEq, Inhabited

/-- `FrameReassembler::PendingFrame` (Protocol.h 238-250). -/
structure PendingFrame where
  type : Nat
  sequenceNumber : Nat
  timestamp : Nat
  totalSize : Nat
  fragmentCount : Nat
  flags : Nat
  sampleRate : Nat
  channels : Nat
  received : List Bool
  data : List Nat
  receivedCount : Nat
  deriving Repr, DecidableEq, Inhabited

/-- The reassembler's mutable state: `pending_` and `stats_`. -/
structure ReassemblerState where
  pending : Option PendingFrame
  stats : FrameReassembler.Stats
  deriving Repr, DecidableEq, Inhabited

/-- `memcpy(buf + offset, src, src.length)` on a byte buffer, used only when
`offset + src.length ≤ buf.length`. -/
def copyInto (buf : List Nat) (offset : Nat) (src : List Nat) : List Nat :=
  buf.take offset ++ src ++ buf.drop (offset + src.length)

/-- The fresh `PendingFrame` initialised from a header (Protocol.cpp
222-235): empty `received` bitset of `fragmentCount` slots and a zeroed data
buffer of `totalSize` bytes. -/
def startFrame (header : PacketHeader) : PendingFrame :=
  { type := header.mediaType, sequenceNumber := header.sequenceNumber,
    timestamp := header.timestamp, totalSize := header.totalSize,
    fragmentCount := header.fragmentCount, flags := header.flags,
    sampleRate := header.sampleRate, channels := header.channels,
    received := List.replicate header.fragmentCount false,
    data := List.replicate header.totalSize 0,
    receivedCount := 0 }

/-- Protocol.cpp 238-277: the tail of `addPacket` after the new-frame branch —
fragment-index validation, duplicate detection, the bounds-guarded payload
copy (`offset + copySize <= pf.data.size()`), and the completion check. -/
def processFragment (stats : FrameReassembler.Stats) (pf : PendingFrame)
    (header : PacketHeader) (payload : List Nat) :
    Option FrameReassembler.Frame × ReassemblerState :=
  if pf.fragmentCount ≤ header.fragmentIndex then
    (none, ⟨some pf, stats⟩)
  else if pf.received.getD header.fragmentIndex false then
    (none, ⟨some pf, { stats with packetsDuplicate := stats.packetsDuplicate + 1 }⟩)
  else
    let offset := header.fragmentIndex * MAX_UDP_PAYLOAD
    let copySize := min payload.length header.payloadSize
    let pf' := if offset + copySize ≤ pf.data.length then
        { pf with data := copyInto pf.data offset (payload.take copySize),
                  received := pf.received.set header.fragmentIndex true,
                  receivedCount := pf.receivedCount + 1 }
      else pf
    if pf'.receivedCount = pf'.fragmentCount then
      (some { type := pf'.type, sequenceNumber := pf'.sequenceNumber,
              timestamp := pf'.timestamp, data := pf'.data,
              isKeyframe := decide (pf'.flags % 2 = 1), sampleRate := pf'.sampleRate,
              channels := pf'.channels },
       ⟨none, { stats with framesCompleted := stats.framesCompleted + 1 }⟩)
    else (none, ⟨some pf', stats⟩)

/-- `FrameReassembler::addPacket` (Protocol.cpp 203-278): count the packet,
start a new pending frame when there is none or the sequence number changed
(accounting the incomplete one as dropped), then process the fragment. -/
def FrameReassembler.addPacket (st : ReassemblerState) (header : PacketHeader)
    (payload : List Nat) : Option FrameReassembler.Frame × ReassemblerState :=
  let stats0 := { st.stats with packetsReceived := st.stats.packetsReceived + 1 }
  match st.pending with
  | none => processFragment stats0 (startFrame header) header payload
  | some pf =>
    if pf.sequenceNumber = header.sequenceNumber then
      processFragment stats0 pf header payload
    else if pf.receivedCount < pf.fragmentCount then
      processFragment
        { stats0 with
            framesDropped := stats0.framesDropped + 1
            totalFragmentsReceivedBeforeDrop :=
              stats0.totalFragmentsReceivedBeforeDrop + pf.receivedCount
            totalFragmentsExpectedBeforeDrop :=
              stats0.totalFragmentsExpectedBeforeDrop + pf.fragmentCount }
        (startFrame header) header payload
    else processFragment stats0 (startFrame header) header payload

/-! ### Facts about `processFragment` used by the loss/duplicate claims -/

theorem processFragment_drop_counters (stats : FrameReassembler.Stats)
    (pf : PendingFrame) (header : PacketHeader) (payload : List Nat) :
    (processFragment stats pf header payload).2.stats.framesDropped =
        stats.framesDropped ∧
    (processFragment stats pf header payload).2.stats.totalFragmentsReceivedBeforeDrop =
        stats.totalFragmentsReceivedBeforeDrop ∧
    (processFragment stats pf header payload).2.stats.totalFragmentsExpectedBeforeDrop =
        stats.totalFragmentsExpectedBeforeDrop := by
  unfold processFragment
  dsimp only
  split_ifs <;> exact ⟨rfl, rfl, rfl⟩

theorem processFragment_seq (stats : FrameReassembler.Stats)
    (pf : PendingFrame) (header : PacketHeader) (payload : List Nat) :
    (∀ f, (processFragment stats pf header payload).1 = some f →
        f.sequenceNumber = pf.sequenceNumber) ∧
    (∀ pf', (processFragment stats pf header payload).2.pending = some pf' →
        pf'.sequenceNumber = pf.sequenceNumber) := by
  unfold processFragment
  dsimp only
  split_ifs <;>
    refine ⟨fun f hf => ?_, fun pf' hpf => ?_⟩ <;>
      first
      | (cases hf; rfl)
      | (cases hpf; rfl)
      | (cases hf)
      | (cases hpf)

/-- C4 — Reassembly under loss: when the pending frame is missing at least one
fragment (`receivedCount < fragmentCount`) and a packet with a different
sequence number arrives, `addPacket` accounts the pending frame as dropped —
`framesDropped` grows by exactly 1, `totalFragmentsReceivedBeforeDrop` by the
number of fragments actually received, `totalFragmentsExpectedBeforeDrop` by
the lost frame's `fragmentCount` — and neither the returned frame (if any) nor
the new pending frame carries the lost sequence number, so no frame for the
incomplete sequence is ever emitted. -/
theorem reassembler_drop_on_sequence_change (st : ReassemblerState)
    (pf : PendingFrame) (header : PacketHeader) (payload : List Nat)
    (hp : st.pending = some pf)
    (hincomplete : pf.receivedCount < pf.fragmentCount)
    (hseq : pf.sequenceNumber ≠ header.sequenceNumber) :
    (FrameReassembler.addPacket st header payload).2.stats.framesDropped =
        st.stats.framesDropped + 1 ∧
    (FrameReassembler.addPacket st header payload).2.stats.totalFragmentsReceivedBeforeDrop =
        st.stats.totalFragmentsReceivedBeforeDrop + pf.receivedCount ∧
    (FrameReassembler.addPacket st header payload).2.stats.totalFragmentsExpectedBeforeDrop =
        st.stats.totalFragmentsExpectedBeforeDrop + pf.fragmentCount ∧
    (∀ f, (FrameReassembler.addPacket st header payload).1 = some f →
        f.sequenceNumber = header.sequenceNumber) ∧
    (∀ pf', (FrameReassembler.addPacket st header payload).2.pending = some pf' →
        pf'.sequenceNumber = header.sequenceNumber) := by
  unfold FrameReassembler.addPacket
  rw [hp]
  dsimp only
  rw [if_neg hseq, if_pos hincomplete]
  obtain ⟨hd, hr, he⟩ := processFragment_drop_counters
    { framesCompleted := st.stats.framesCompleted
      framesDropped := st.stats.framesDropped + 1
      packetsReceived := st.stats.packetsReceived + 1
      packetsDuplicate := st.stats.packetsDuplicate
      totalFragmentsReceivedBeforeDrop :=
        st.stats.totalFragmentsReceivedBeforeDrop + pf.receivedCount
      totalFragmentsExpectedBeforeDrop :=
        st.stats.totalFragmentsExpectedBeforeDrop + pf.fragmentCount }
    (startFrame header) header payload
  obtain ⟨hf, hpend⟩ := processFragment_seq
    { framesCompleted := st.stats.framesCompleted
      framesDropped := st.stats.framesDropped + 1
      packetsReceived := st.stats.packetsReceived + 1
      packetsDuplicate := st.stats.packetsDuplicate
      totalFragmentsReceivedBeforeDrop :=
        st.stats.totalFragmentsReceivedBeforeDrop + pf.receivedCount
      totalFragmentsExpectedBeforeDrop :=
        st.stats.totalFragmentsExpectedBeforeDrop + pf.fragmentCount }
    (startFrame header) header payload
  exact ⟨hd, hr, he, hf, hpend⟩

/-- A pending 3-fragment frame for sequence 7 of which one fragment arrived. -/
def pendingC4 : PendingFrame :=
  { type := 0, sequenceNumber := 7, timestamp := 0, totalSize := 2400,
    fragmentCount := 3, flags := 0, sampleRate := 0, channels := 0,
    received := [true, false, false], data := List.replicate 2400 0,
    receivedCount := 1 }

/-- C4 witness: the pending frame for sequence 7 missing two fragments is
flushed as dropped when a fragment of sequence 8 arrives. -/
theorem reassembler_drop_on_sequence_change_witness :
    (FrameReassembler.addPacket ⟨some pendingC4, ⟨0, 0, 1, 0, 0, 0⟩⟩
      (Protocol.createVideoHeader 8 0 100 0 1 100 false)
      (List.replicate 100 5)).2.stats.framesDropped = 0 + 1 :=
  (reassembler_drop_on_sequence_change _ pendingC4
    (Protocol.createVideoHeader 8 0 100 0 1 100 false)
    (List.replicate 100 5) rfl (by decide) (by decide)).1

/-- C9 — Duplicate tolerance: a fragment whose slot is already filled for the
current pending sequence bumps `packetsReceived` and `packetsDuplicate` by
exactly 1, returns no frame, and leaves the pending frame — data buffer,
received bitset and receivedCount included — completely unchanged. -/
theorem reassembler_duplicate_tolerance (st : ReassemblerState)
    (pf : PendingFrame) (header : PacketHeader) (payload : List Nat)
    (hp : st.pending = some pf)
    (hseq : pf.sequenceNumber = header.sequenceNumber)
    (hidx : header.fragmentIndex < pf.fragmentCount)
    (hdup : pf.received.getD header.fragmentIndex false = true) :
    FrameReassembler.addPacket st header payload =
      (none, ⟨some pf,
        { st.stats with
            packetsReceived := st.stats.packetsReceived + 1
            packetsDuplicate := st.stats.packetsDuplicate + 1 }⟩) := by
  unfold FrameReassembler.addPacket processFragment
  rw [hp]
  dsimp only
  rw [if_pos hseq, if_neg (by omega : ¬ pf.fragmentCount ≤ header.fragmentIndex),
    if_pos hdup]

/-- A pending two-fragment frame for sequence 7 whose fragment 0 arrived. -/
def pendingC9 : PendingFrame :=
  { type := 0, sequenceNumber := 7, timestamp := 0, totalSize := 3,
    fragmentCount := 2, flags := 0, sampleRate := 0, channels := 0,
    received := [true, false], data := [9, 9, 0], receivedCount := 1 }

/-- C9 witness: the duplicate-tolerance theorem at a concrete two-fragment
pending frame receiving fragment 0 twice. -/
theorem reassembler_duplicate_tolerance_witness :
    FrameReassembler.addPacket ⟨some pendingC9, ⟨0, 0, 1, 0, 0, 0⟩⟩
      (Protocol.createVideoHeader 7 0 3 0 2 2 false) [9, 9] =
      (none, ⟨some pendingC9, ⟨0, 0, 2, 1, 0, 0⟩⟩) :=
  reassembler_duplicate_tolerance _ pendingC9
    (Protocol.createVideoHeader 7 0 3 0 2 2 false) [9, 9]
    rfl rfl (by decide) (by decide)

/-- C10 — Reassembler bounds guard: for a fragment of the current pending
sequence with `fragmentIndex < fragmentCount` whose copy range
`fragmentIndex·(MTU−38) + min(payload length, payloadSize)` exceeds the
pending data buffer's size, the payload copy is skipped entirely: the fragment
stays unmarked, `receivedCount` and the data buffer are unchanged (the pending
frame is returned exactly as it was, so the fragment can never contribute to
completing the frame), no frame is emitted, and only `packetsReceived` is
counted. -/
theorem reassembler_bounds_guard (st : ReassemblerState)
    (pf : PendingFrame) (header : PacketHeader) (payload : List Nat)
    (hp : st.pending = some pf)
    (hseq : pf.sequenceNumber = header.sequenceNumber)
    (hidx : header.fragmentIndex < pf.fragmentCount)
    (hnew : pf.received.getD header.fragmentIndex false = false)
    (hcount : pf.receivedCount < pf.fragmentCount)
    (hoob : pf.data.length <
        header.fragmentIndex * MAX_UDP_PAYLOAD + min payload.length header.payloadSize) :
    FrameReassembler.addPacket st header payload =
      (none, ⟨some pf,
        { st.stats with packetsReceived := st.stats.packetsReceived + 1 }⟩) := by
  unfold FrameReassembler.addPacket processFragment
  rw [hp]
  dsimp only
  rw [if_pos hseq, if_neg (by omega : ¬ pf.fragmentCount ≤ header.fragmentIndex),
    if_neg (by rw [hnew]; exact Bool.false_ne_true),
    if_neg (by omega :
      ¬ header.fragmentIndex * MAX_UDP_PAYLOAD + min payload.length header.payloadSize ≤
        pf.data.length),
    if_neg (by omega : ¬ pf.receivedCount = pf.fragmentCount)]

/-- A pending two-fragment frame for sequence 7 with a 50-byte buffer and no
fragment received yet. -/
def pendingC10 : PendingFrame :=
  { type := 0, sequenceNumber := 7, timestamp := 0, totalSize := 50,
    fragmentCount := 2, flags := 0, sampleRate := 0, channels := 0,
    received := [false, false], data := List.replicate 50 0, receivedCount := 0 }

/-- C10 witness: a fragment claiming index 1 with a 100-byte payload against a
pending frame whose buffer only holds 50 bytes is ignored without marking. -/
theorem reassembler_bounds_guard_witness :
    FrameReassembler.addPacket ⟨some pendingC10, ⟨0, 0, 0, 0, 0, 0⟩⟩
      (Protocol.createVideoHeader 7 0 50 1 2 100 false) (List.replicate 100 5) =
      (none, ⟨some pendingC10, ⟨0, 0, 1, 0, 0, 0⟩⟩) :=
  reassembler_bounds_guard _ pendingC10
    (Protocol.createVideoHeader 7 0 50 1 2 100 false) (List.replicate 100 5)
    rfl rfl (by decide) (by decide) (by decide) (by decide)

/-! ## Bounded drop-oldest queues
(src/host/HostMode.cpp 246-258 and src/join/JoinMode.cpp 254-267) -/

/-- `NDIVideoFrame` (src/ndi/NDIReceiver.h, 32-41). -/
structure NDIVideoFrame where
  width : Nat
  height : Nat
  stride : Nat
  fourcc : Nat
  frameRateN : Nat
  frameRateD : Nat
  timestamp : Nat
  data : List Nat
  deriving Repr, DecidableEq, Inhabited

/-- `ReceivedVideoFrame` (src/network/NetworkReceiver.h, 48-53). -/
structure ReceivedVideoFrame where
  data : List Nat
  timestamp : Nat
  isKeyframe : Bool
  sequenceNumber : Nat
  deriving Repr, DecidableEq, Inhabited

/-- `HostMode::MAX_QUEUE_SIZE` (src/host/HostMode.h, 122). -/
def HostMode.MAX_QUEUE_SIZE : Nat := 3

/-- `JoinMode::MAX_DECODE_QUEUE` (src/join/JoinMode.h, 124): 3 s at 30 fps. -/
def JoinMode.MAX_DECODE_QUEUE : Nat := 90

/-- The members of `HostMode` touched by its video-frame callback. -/
structure HostModeQueueState where
  frameQueue : List NDIVideoFrame
  videoFramesReceived : Nat
  videoFramesDropped : Nat
  deriving Repr, DecidableEq, Inhabited

/-- `HostMode::onVideoFrame` (src/host/HostMode.cpp, 246-258): count the
frame, pop the head when the queue already holds `MAX_QUEUE_SIZE` elements
(counting the drop), then push. -/
def HostMode.onVideoFrame (st : HostModeQueueState) (frame : NDIVideoFrame) :
    HostModeQueueState :=
  let st1 := { st with videoFramesReceived := st.videoFramesReceived + 1 }
  if HostMode.MAX_QUEUE_SIZE ≤ st1.frameQueue.length then
    { st1 with frameQueue := st1.frameQueue.tail ++ [frame],
               videoFramesDropped := st1.videoFramesDropped + 1 }
  else { st1 with frameQueue := st1.frameQueue ++ [frame] }

/-- The members of `JoinMode` touched by its video-frame callback. -/
structure JoinModeQueueState where
  decodeQueue : List ReceivedVideoFrame
  videoFramesReceived : Nat
  videoFramesDroppedQueue : Nat
  deriving Repr, DecidableEq, Inhabited

/-- `JoinMode::onVideoFrame` (src/join/JoinMode.cpp, 254-267): same
drop-oldest policy with capacity `MAX_DECODE_QUEUE`. -/
def JoinMode.onVideoFrame (st : JoinModeQueueState) (frame : ReceivedVideoFrame) :
    JoinModeQueueState :=
  let st1 := { st with videoFramesReceived := st.videoFramesReceived + 1 }
  if JoinMode.MAX_DECODE_QUEUE ≤ st1.decodeQueue.length then
    { st1 with decodeQueue := st1.decodeQueue.tail ++ [frame],
               videoFramesDroppedQueue := st1.videoFramesDroppedQueue + 1 }
  else { st1 with decodeQueue := st1.decodeQueue ++ [frame] }

/-- C7 — Drop-oldest bounded queues: enqueuing into the sender's full encode
queue (capacity 3) or the receiver's full decode queue (capacity 90) pops
exactly the head before pushing, increments the queue-drop counter by 1 and
leaves the size at the capacity; enqueuing into a non-full queue pops nothing
and leaves the drop counter untouched. -/
theorem drop_oldest_bounded_queues
    (stH stH2 : HostModeQueueState) (stJ stJ2 : JoinModeQueueState)
    (fH fH2 : NDIVideoFrame) (fJ fJ2 : ReceivedVideoFrame)
    (hHfull : stH.frameQueue.length = HostMode.MAX_QUEUE_SIZE)
    (hH2 : stH2.frameQueue.length < HostMode.MAX_QUEUE_SIZE)
    (hJfull : stJ.decodeQueue.length = JoinMode.MAX_DECODE_QUEUE)
    (hJ2 : stJ2.decodeQueue.length < JoinMode.MAX_DECODE_QUEUE) :
    ((HostMode.onVideoFrame stH fH).frameQueue = stH.frameQueue.tail ++ [fH] ∧
     (HostMode.onVideoFrame stH fH).frameQueue.length = HostMode.MAX_QUEUE_SIZE ∧
     (HostMode.onVideoFrame stH fH).videoFramesDropped = stH.videoFramesDropped + 1) ∧
    ((HostMode.onVideoFrame stH2 fH2).frameQueue = stH2.frameQueue ++ [fH2] ∧
     (HostMode.onVideoFrame stH2 fH2).videoFramesDropped = stH2.videoFramesDropped) ∧
    ((JoinMode.onVideoFrame stJ fJ).decodeQueue = stJ.decodeQueue.tail ++ [fJ] ∧
     (JoinMode.onVideoFrame stJ fJ).decodeQueue.length = JoinMode.MAX_DECODE_QUEUE ∧
     (JoinMode.onVideoFrame stJ fJ).videoFramesDroppedQueue =
       stJ.videoFramesDroppedQueue + 1) ∧
    ((JoinMode.onVideoFrame stJ2 fJ2).decodeQueue = stJ2.decodeQueue ++ [fJ2] ∧
     (JoinMode.onVideoFrame stJ2 fJ2).videoFramesDroppedQueue =
       stJ2.videoFramesDroppedQueue) := by
  unfold HostMode.onVideoFrame JoinMode.onVideoFrame
  dsimp only
  rw [if_pos (by omega : HostMode.MAX_QUEUE_SIZE ≤ stH.frameQueue.length),
    if_neg (by omega : ¬ HostMode.MAX_QUEUE_SIZE ≤ stH2.frameQueue.length),
    if_pos (by omega : JoinMode.MAX_DECODE_QUEUE ≤ stJ.decodeQueue.length),
    if_neg (by omega : ¬ JoinMode.MAX_DECODE_QUEUE ≤ stJ2.decodeQueue.length)]
  refine ⟨⟨rfl, ?_, rfl⟩, ⟨rfl, rfl⟩, ⟨rfl, ?_, rfl⟩, rfl, rfl⟩
  · rw [List.length_append, List.length_tail]
    simp only [List.length_cons, List.length_nil]
    omega
  · rw [List.length_append, List.length_tail]
    simp only [List.length_cons, List.length_nil]
    omega

/-- C7 witness: the queue theorem at concrete full (3- and 90-element) and
non-full (1- and 0-element) queues. -/
theorem drop_oldest_bounded_queues_witness :
    (HostMode.onVideoFrame
        ⟨List.replicate 3 default, 5, 0⟩ default).frameQueue.length =
      HostMode.MAX_QUEUE_SIZE ∧
    (JoinMode.onVideoFrame
        ⟨List.replicate 90 default, 7, 2⟩ default).videoFramesDroppedQueue = 2 + 1 ∧
    (HostMode.onVideoFrame ⟨List.replicate 1 default, 0, 4⟩ default).videoFramesDropped
      = 4 :=
  have h := drop_oldest_bounded_queues
    ⟨List.replicate 3 default, 5, 0⟩ ⟨List.replicate 1 default, 0, 4⟩
    ⟨List.replicate 90 default, 7, 2⟩ ⟨[], 0, 0⟩
    default default default default
    (by decide) (by decide)
    (by simp [JoinMode.MAX_DECODE_QUEUE]) (by simp [JoinMode.MAX_DECODE_QUEUE])
  ⟨h.1.2.1, h.2.2.1.2.2, h.2.1.2⟩

/-! ## Buffered playout scheduler (src/join/JoinMode.cpp 343-485) -/

/-- `DecodedFrame` as delivered to `JoinMode::onDecodedFrame`
(src/video/VideoDecoder.h); `format` is the raw output-pixel-format tag. -/
structure DecodedFrame where
  data : List Nat
  width : Nat
  height : Nat
  stride : Nat
  format : Nat
  timestamp : Nat
  deriving Repr, DecidableEq, Inhabited

/-- `BufferedVideoFrame` (src/join/JoinMode.h, 42-50); `ndiFormat` is the raw
NDI format tag. -/
structure BufferedVideoFrame where
  data : List Nat
  width : Nat
  height : Nat
  stride : Nat
  ndiFormat : Nat
  timestamp : Nat
  playTime : Nat
  deriving Repr, DecidableEq, Inhabited

/-- The members of `JoinMode` driving the buffered playout path
(src/join/JoinMode.h, 150-158 plus `config_.bufferMs` and the
`ndiSender_->isRunning()` guard). -/
structure JoinPlayoutState where
  bufferMs : Nat
  senderRunning : Bool
  videoFramesDecoded : Nat
  videoFramesOutput : Nat
  bufferStartTime : Nat
  firstFrameTimestamp : Nat
  bufferSynced : Bool
  videoBuffer : List BufferedVideoFrame
  deriving Repr, DecidableEq, Inhabited

/-- `uint64_t` subtraction `a - b` for `a, b < 2^64`. -/
def sub64 (a b : Nat) : Nat := (a + 2^64 - b) % 2^64

/-- `JoinMode::onDecodedFrame` (src/join/JoinMode.cpp, 343-418): bail out if
the NDI sender is not running; in buffered mode set the anchors on the first
frame (`!bufferSynced_ && firstFrameTimestamp_ == 0`), compute
`playTime = bufferStartTime + (timestamp − firstFrameTimestamp)/10 +
bufferMs·1000` in microseconds and append to the ordered buffer; in real-time
mode forward directly to NDI. -/
def JoinMode.onDecodedFrame (st : JoinPlayoutState) (now_us : Nat)
    (frame : DecodedFrame) : JoinPlayoutState :=
  let st := { st with videoFramesDecoded := st.videoFramesDecoded + 1 }
  if st.senderRunning then
    if 0 < st.bufferMs then
      let anchor : Nat × Nat × Bool :=
        if st.bufferSynced = false ∧ st.firstFrameTimestamp = 0 then
          (frame.timestamp, now_us, true)
        else (st.firstFrameTimestamp, st.bufferStartTime, st.bufferSynced)
      let relativeTime := sub64 frame.timestamp anchor.1 / 10
      let playTime := anchor.2.1 + relativeTime + st.bufferMs * 1000
      { st with firstFrameTimestamp := anchor.1, bufferStartTime := anchor.2.1,
                bufferSynced := anchor.2.2,
                videoBuffer := st.videoBuffer ++
                  [{ data := frame.data, width := frame.width, height := frame.height,
                     stride := frame.stride, ndiFormat := frame.format,
                     timestamp := frame.timestamp, playTime := playTime }] }
    else
      { st with videoFramesOutput := st.videoFramesOutput + 1 }
  else st

/-- The video half of `JoinMode::processBufferedFrames`
(src/join/JoinMode.cpp, 440-467): pop frames from the front while
`playTime ≤ now`, forwarding each to NDI (and counting it) only when the
sender is running.  Returns (emitted frames, remaining buffer, frames-output
increment). -/
def JoinMode.drainVideoBuffer (senderRunning : Bool) (now : Nat) :
    List BufferedVideoFrame →
      List BufferedVideoFrame × List BufferedVideoFrame × Nat
  | [] => ([], [], 0)
  | f :: rest =>
    if f.playTime ≤ now then
      let r := drainVideoBuffer senderRunning now rest
      ((if senderRunning then f :: r.1 else r.1), r.2.1,
       (if senderRunning then 1 else 0) + r.2.2)
    else ([], f :: rest, 0)

theorem drainVideoBuffer_due (senderRunning : Bool) (now : Nat) :
    ∀ buf : List BufferedVideoFrame,
      ∀ f ∈ (JoinMode.drainVideoBuffer senderRunning now buf).1, f.playTime ≤ now := by
  intro buf
  induction buf with
  | nil => intro f hf; cases hf
  | cons g rest ih =>
    intro f hf
    unfold JoinMode.drainVideoBuffer at hf
    dsimp only at hf
    by_cases hg : g.playTime ≤ now
    · rw [if_pos hg] at hf
      by_cases hs : senderRunning = true
      · rw [if_pos hs] at hf
        rcases List.mem_cons.mp hf with h | h
        · rw [h]; exact hg
        · exact ih f h
      · rw [if_neg hs] at hf
        exact ih f hf
    · rw [if_neg hg] at hf
      cases hf

/-- C8 — Buffered playout schedule: in buffered mode the first buffered frame
fixes the anchors `firstTimestamp` (its protocol timestamp) and `bufferStart`
(the wall-clock microsecond time of its arrival) and is scheduled at
`bufferStart + bufferMs·1000`; every later buffered frame gets
`playTime = bufferStart + (timestamp − firstTimestamp)/10 + bufferMs·1000`
microseconds, so for non-decreasing protocol timestamps the play times are
non-decreasing; and the playout loop emits a frame only when its
`playTime ≤ now`. -/
theorem buffered_playout_schedule
    (st1 st2 : JoinPlayoutState) (now1 now2 nowd : Nat) (f1 f2 f3 : DecodedFrame)
    (buf : List BufferedVideoFrame) (running : Bool)
    (h1run : st1.senderRunning = true) (h1buf : 0 < st1.bufferMs)
    (h1sync : st1.bufferSynced = false) (h1first : st1.firstFrameTimestamp = 0)
    (h1ts : f1.timestamp < 2^64)
    (h2run : st2.senderRunning = true) (h2buf : 0 < st2.bufferMs)
    (h2sync : st2.bufferSynced = true)
    (h2ts : st2.firstFrameTimestamp ≤ f2.timestamp)
    (h2ts3 : f2.timestamp ≤ f3.timestamp) (h2lt : f3.timestamp < 2^64) :
    ((JoinMode.onDecodedFrame st1 now1 f1).firstFrameTimestamp = f1.timestamp ∧
     (JoinMode.onDecodedFrame st1 now1 f1).bufferStartTime = now1 ∧
     (JoinMode.onDecodedFrame st1 now1 f1).bufferSynced = true ∧
     (JoinMode.onDecodedFrame st1 now1 f1).videoBuffer.map BufferedVideoFrame.playTime =
       st1.videoBuffer.map BufferedVideoFrame.playTime ++
         [now1 + st1.bufferMs * 1000]) ∧
    ((JoinMode.onDecodedFrame st2 now2 f2).videoBuffer.map BufferedVideoFrame.playTime =
       st2.videoBuffer.map BufferedVideoFrame.playTime ++
         [st2.bufferStartTime + (f2.timestamp - st2.firstFrameTimestamp) / 10 +
          st2.bufferMs * 1000]) ∧
    (st2.bufferStartTime + (f2.timestamp - st2.firstFrameTimestamp) / 10 +
        st2.bufferMs * 1000 ≤
      st2.bufferStartTime + (f3.timestamp - st2.firstFrameTimestamp) / 10 +
        st2.bufferMs * 1000) ∧
    (∀ f ∈ (JoinMode.drainVideoBuffer running nowd buf).1, f.playTime ≤ nowd) := by
  refine ⟨?_, ?_, by omega, drainVideoBuffer_due running nowd buf⟩
  · unfold JoinMode.onDecodedFrame
    dsimp only
    rw [h1run, if_pos rfl, if_pos h1buf, if_pos ⟨h1sync, h1first⟩]
    have hz : sub64 f1.timestamp f1.timestamp = 0 := by unfold sub64; omega
    dsimp only
    rw [hz]
    exact ⟨rfl, rfl, rfl, by simp⟩
  · unfold JoinMode.onDecodedFrame
    dsimp only
    rw [h2run, if_pos rfl, if_pos h2buf,
      if_neg (by rw [h2sync]; simp)]
    have hs : sub64 f2.timestamp st2.firstFrameTimestamp =
        f2.timestamp - st2.firstFrameTimestamp := by unfold sub64; omega
    dsimp only
    rw [hs]
    simp

/-- C8 witness: the playout theorem at a concrete scenario — first frame at
timestamp 10^7 arriving at wall-clock 500 µs with a 200 ms buffer, a later
synced frame one second after the anchor, and a drain over a two-frame
buffer. -/
theorem buffered_playout_schedule_witness :
    ((JoinMode.onDecodedFrame ⟨200, true, 0, 0, 0, 0, false, []⟩ 500
        ⟨[1], 2, 2, 2, 0, 10000000⟩).firstFrameTimestamp = 10000000 ∧
     (JoinMode.onDecodedFrame ⟨200, true, 0, 0, 0, 0, false, []⟩ 500
        ⟨[1], 2, 2, 2, 0, 10000000⟩).bufferStartTime = 500 ∧
     (JoinMode.onDecodedFrame ⟨200, true, 0, 0, 0, 0, false, []⟩ 500
        ⟨[1], 2, 2, 2, 0, 10000000⟩).bufferSynced = true ∧
     (JoinMode.onDecodedFrame ⟨200, true, 0, 0, 0, 0, false, []⟩ 500
        ⟨[1], 2, 2, 2, 0, 10000000⟩).videoBuffer.map BufferedVideoFrame.playTime =
       ([] : List BufferedVideoFrame).map BufferedVideoFrame.playTime ++
         [500 + 200 * 1000]) ∧
    ((JoinMode.onDecodedFrame ⟨200, true, 1, 0, 500, 10000000, true, []⟩ 900500
        ⟨[1], 2, 2, 2, 0, 20000000⟩).videoBuffer.map BufferedVideoFrame.playTime =
       ([] : List BufferedVideoFrame).map BufferedVideoFrame.playTime ++
         [500 + (20000000 - 10000000) / 10 + 200 * 1000]) ∧
    (500 + (20000000 - 10000000) / 10 + 200 * 1000 ≤
      500 + (30000000 - 10000000) / 10 + 200 * 1000) ∧
    (∀ f ∈ (JoinMode.drainVideoBuffer true 1000000
        [⟨[], 0, 0, 0, 0, 0, 200500⟩, ⟨[], 0, 0, 0, 0, 0, 1200500⟩]).1,
      f.playTime ≤ 1000000) :=
  buffered_playout_schedule
    ⟨200, true, 0, 0, 0, 0, false, []⟩ ⟨200, true, 1, 0, 500, 10000000, true, []⟩
    500 900500 1000000
    ⟨[1], 2, 2, 2, 0, 10000000⟩ ⟨[1], 2, 2, 2, 0, 20000000⟩ ⟨[1], 2, 2, 2, 0, 30000000⟩
    [⟨[], 0, 0, 0, 0, 0, 200500⟩, ⟨[], 0, 0, 0, 0, 0, 1200500⟩] true
    rfl (by decide) rfl rfl (by decide) rfl (by decide) rfl
    (by decide) (by decide) (by decide)

/-! ## Reassembly under permutation (C3)

The receiver loop calls `addPacket` once per datagram; `processList` folds
that call over a list of (header, payload) packets, collecting the results. -/

def FrameReassembler.processList (st : ReassemblerState) :
    List (PacketHeader × List Nat) →
      List (Option FrameReassembler.Frame) × ReassemblerState
  | [] => ([], st)
  | p :: rest =>
    let r := FrameReassembler.addPacket st p.1 p.2
    let r' := processList r.2 rest
    (r.1 :: r'.1, r'.2)

/-- The datagrams `NetworkSender::sendVideo` cuts a frame into (the list shown
to equal the emitted datagrams in the fragmentation theorem). -/
def videoFragments (frame : List Nat) (seq ts : Nat) (isKey : Bool) :
    List (PacketHeader × List Nat) :=
  (List.range (Protocol.calculateFragmentCount (frame.length % 2^32))).map
    (mkVideoFragment frame (frame.length % 2^32) seq ts isKey
      (Protocol.calculateFragmentCount (frame.length % 2^32)))

/-- The `received` bitset after the fragments listed in `done` arrived. -/
def receivedOf (n : Nat) (done : List Nat) : List Bool :=
  (List.range n).map (fun j => decide (j ∈ done))

/-- The data buffer after the fragments listed in `done` arrived: byte `j`
holds the frame byte when fragment `j / P` arrived and the initial zero
otherwise. -/
def dataOf (frame : List Nat) (done : List Nat) : List Nat :=
  (List.range frame.length).map
    (fun j => if j / MAX_UDP_PAYLOAD ∈ done then frame.getD j 0 else 0)

/-- The pending frame after the distinct fragments listed in `done` arrived. -/
def pendingOf (frame : List Nat) (seq ts fl n : Nat) (done : List Nat) :
    PendingFrame :=
  { type := 0, sequenceNumber := seq, timestamp := ts, totalSize := frame.length,
    fragmentCount := n, flags := fl, sampleRate := 0, channels := 0,
    received := receivedOf n done, data := dataOf frame done,
    receivedCount := done.length }

theorem receivedOf_length (n : Nat) (done : List Nat) :
    (receivedOf n done).length = n := by
  unfold receivedOf; simp

theorem dataOf_length (frame : List Nat) (done : List Nat) :
    (dataOf frame done).length = frame.length := by
  unfold dataOf; simp

theorem receivedOf_getD (n i : Nat) (done : List Nat) (hi : i < n) :
    (receivedOf n done).getD i false = decide (i ∈ done) := by
  unfold receivedOf
  rw [List.getD_eq_getElem _ _ (by simpa using hi)]
  simp

theorem receivedOf_nil (n : Nat) : receivedOf n [] = List.replicate n false := by
  unfold receivedOf
  rw [List.map_congr_left (fun j _ => by simp : ∀ j ∈ List.range n,
    decide (j ∈ ([] : List Nat)) = false)]
  rw [List.map_const', List.length_range]

theorem dataOf_nil (frame : List Nat) :
    dataOf frame [] = List.replicate frame.length 0 := by
  unfold dataOf
  rw [List.map_congr_left (fun j _ => by simp : ∀ j ∈ List.range frame.length,
    (if j / MAX_UDP_PAYLOAD ∈ ([] : List Nat) then frame.getD j 0 else 0) = 0)]
  rw [List.map_const', List.length_range]

/-- `startFrame` on any fragment header of the frame is the empty pending
frame. -/
theorem startFrame_mkFragment (frame : List Nat) (seq ts : Nat) (isKey : Bool)
    (n i : Nat) :
    startFrame (mkVideoFragment frame frame.length seq ts isKey n i).1 =
      pendingOf frame seq ts (if isKey then 1 else 0) n [] := by
  unfold startFrame mkVideoFragment Protocol.createVideoHeader pendingOf
  dsimp only
  rw [receivedOf_nil, dataOf_nil]
  rfl

/-- Marking fragment `i` turns the bitset for `done` into the bitset for
`done ++ [i]`. -/
theorem receivedOf_snoc (n i : Nat) (done : List Nat) (hi : i < n) :
    (receivedOf n done).set i true = receivedOf n (done ++ [i]) := by
  apply List.ext_getElem?
  intro j
  unfold receivedOf
  by_cases hij : i = j
  · subst hij
    simp [List.getElem?_set, List.getElem?_map, List.getElem?_range, hi,
      List.mem_append]
  · have hji : ¬ j = i := fun h => hij h.symm
    by_cases hj : j < n
    · simp [List.getElem?_set, hij, List.getElem?_map, List.getElem?_range, hj,
        List.mem_append, hji]
    · have e1 : (((List.range n).map (fun j => decide (j ∈ done))).set i true).length ≤ j := by
        simp only [List.length_set, List.length_map, List.length_range]
        omega
      have e2 : ((List.range n).map (fun j => decide (j ∈ done ++ [i]))).length ≤ j := by
        simp only [List.length_map, List.length_range]
        omega
      rw [List.getElem?_eq_none e1, List.getElem?_eq_none e2]

/-- Copying fragment `i`'s payload slice into the buffer for `done` produces
the buffer for `done ++ [i]`. -/
theorem dataOf_snoc (frame : List Nat) (n i : Nat) (done : List Nat)
    (hn : n = (frame.length + MAX_UDP_PAYLOAD - 1) / MAX_UDP_PAYLOAD)
    (hi : i < n) :
    copyInto (dataOf frame done) (i * MAX_UDP_PAYLOAD)
      ((frame.drop (i * MAX_UDP_PAYLOAD)).take
        (min MAX_UDP_PAYLOAD (frame.length - i * MAX_UDP_PAYLOAD))) =
      dataOf frame (done ++ [i]) := by
  have hP : MAX_UDP_PAYLOAD = 1162 := rfl
  rw [hP] at hn ⊢
  have hlen : 0 < frame.length := by omega
  have hoff : i * 1162 < frame.length := by omega
  set ps := min 1162 (frame.length - i * 1162) with hps
  have hsrc : ((frame.drop (i * 1162)).take ps).length = ps := by
    simp [List.length_take, List.length_drop]
    omega
  have hdata : (dataOf frame done).length = frame.length := dataOf_length frame done
  have htake : ((dataOf frame done).take (i * 1162)).length = i * 1162 := by
    simp [List.length_take]
    omega
  apply List.ext_getElem?
  intro j
  unfold copyInto
  rw [List.getElem?_append, List.getElem?_append, List.length_append, htake, hsrc]
  by_cases h1 : j < i * 1162
  · rw [if_pos (by omega), if_pos (by omega)]
    have hne : ¬ j / 1162 = i := by omega
    unfold dataOf
    rw [hP]
    simp only [List.getElem?_take]
    rw [if_pos h1]
    by_cases hj : j < frame.length
    · simp [List.getElem?_map, List.getElem?_range, hj, List.mem_append, hne]
    · rw [List.getElem?_eq_none (show ((List.range frame.length).map _).length ≤ j by
          simp [List.length_range]; omega),
        List.getElem?_eq_none (show ((List.range frame.length).map _).length ≤ j by
          simp [List.length_range]; omega)]
  · by_cases h2 : j < i * 1162 + ps
    · rw [if_pos (by omega), if_neg (by omega)]
      simp only [List.getElem?_take, List.getElem?_drop]
      rw [if_pos (by omega : j - i * 1162 < ps)]
      have hidx : i * 1162 + (j - i * 1162) = j := by omega
      rw [hidx]
      have hjlen : j < frame.length := by omega
      have hdiv : j / 1162 = i := by omega
      have hmem : j / 1162 ∈ done ++ [i] := by simp [List.mem_append, hdiv]
      unfold dataOf
      rw [hP]
      rw [List.getElem?_eq_getElem hjlen]
      simp [List.getElem?_map, List.getElem?_range, hjlen, hmem,
        List.getD_eq_getElem _ _ hjlen]
      exact (if_pos (Or.inr hdiv)).symm
    · rw [if_neg (by omega : ¬ j < i * 1162 + ps)]
      simp only [List.getElem?_drop]
      have hidx : i * 1162 + ps + (j - (i * 1162 + ps)) = j := by omega
      rw [hidx]
      unfold dataOf
      rw [hP]
      by_cases hj : j < frame.length
      · have hne : ¬ j / 1162 = i := by omega
        simp [List.getElem?_map, List.getElem?_range, hj, List.mem_append, hne]
      · rw [List.getElem?_eq_none (show ((List.range frame.length).map _).length ≤ j by
            simp [List.length_range]; omega),
          List.getElem?_eq_none (show ((List.range frame.length).map _).length ≤ j by
            simp [List.length_range]; omega)]

/-- Once every fragment index below `n` is present in `done`, the buffer is
the frame itself. -/
theorem dataOf_full (frame : List Nat) (n : Nat) (done : List Nat)
    (hn : n = (frame.length + MAX_UDP_PAYLOAD - 1) / MAX_UDP_PAYLOAD)
    (hmem : ∀ j, j < n → j ∈ done) :
    dataOf frame done = frame := by
  have hP : MAX_UDP_PAYLOAD = 1162 := rfl
  rw [hP] at hn
  apply List.ext_getElem?
  intro j
  unfold dataOf
  rw [hP]
  by_cases hj : j < frame.length
  · rw [List.getElem?_eq_getElem (show j < ((List.range frame.length).map _).length by
      simp [List.length_range]; omega)]
    rw [List.getElem?_eq_getElem hj]
    simp only [List.getElem_map, List.getElem_range]
    rw [if_pos (hmem _ (by omega))]
    rw [List.getD_eq_getElem _ _ hj]
  · rw [List.getElem?_eq_none (show ((List.range frame.length).map _).length ≤ j by
        simp [List.length_range]; omega)]
    rw [List.getElem?_eq_none (by omega)]

/-- One `addPacket` call on a fresh fragment `i` of the current sequence:
either it is the last missing fragment and the completed frame is emitted, or
the pending frame advances from `done` to `done ++ [i]`. -/
theorem addPacket_pendingOf (frame : List Nat) (seq ts : Nat) (isKey : Bool)
    (n i : Nat) (done : List Nat) (stats : FrameReassembler.Stats)
    (hn : n = (frame.length + MAX_UDP_PAYLOAD - 1) / MAX_UDP_PAYLOAD)
    (hi : i < n) (hnotin : i ∉ done) :
    FrameReassembler.addPacket
        ⟨some (pendingOf frame seq ts (if isKey then 1 else 0) n done), stats⟩
        (mkVideoFragment frame frame.length seq ts isKey n i).1
        (mkVideoFragment frame frame.length seq ts isKey n i).2 =
      (if done.length + 1 = n then
         (some { type := 0, sequenceNumber := seq, timestamp := ts,
                 data := dataOf frame (done ++ [i]), isKeyframe := isKey,
                 sampleRate := 0, channels := 0 },
          ⟨none, { stats with
                     packetsReceived := stats.packetsReceived + 1
                     framesCompleted := stats.framesCompleted + 1 }⟩)
       else
         (none,
          ⟨some (pendingOf frame seq ts (if isKey then 1 else 0) n (done ++ [i])),
           { stats with packetsReceived := stats.packetsReceived + 1 }⟩)) := by
  have hP : MAX_UDP_PAYLOAD = 1162 := rfl
  have hn2 : n = (frame.length + 1162 - 1) / 1162 := by rw [← hP]; exact hn
  have hkey : decide (((if isKey then (1 : Nat) else 0)) % 2 = 1) = isKey := by
    cases isKey <;> rfl
  unfold FrameReassembler.addPacket processFragment mkVideoFragment
    Protocol.createVideoHeader pendingOf
  dsimp only
  rw [if_pos rfl, if_neg (by omega : ¬ n ≤ i)]
  rw [receivedOf_getD n i done hi]
  rw [if_neg (by simp [hnotin])]
  have hguard : i * MAX_UDP_PAYLOAD +
      min ((frame.drop (i * MAX_UDP_PAYLOAD)).take
        (min MAX_UDP_PAYLOAD (frame.length - i * MAX_UDP_PAYLOAD))).length
        (min MAX_UDP_PAYLOAD (frame.length - i * MAX_UDP_PAYLOAD)) ≤
      (dataOf frame done).length := by
    rw [dataOf_length, List.length_take, List.length_drop, hP]
    omega
  rw [if_pos hguard]
  have htk : ((frame.drop (i * MAX_UDP_PAYLOAD)).take
      (min MAX_UDP_PAYLOAD (frame.length - i * MAX_UDP_PAYLOAD))).take
      (min ((frame.drop (i * MAX_UDP_PAYLOAD)).take
        (min MAX_UDP_PAYLOAD (frame.length - i * MAX_UDP_PAYLOAD))).length
        (min MAX_UDP_PAYLOAD (frame.length - i * MAX_UDP_PAYLOAD))) =
      (frame.drop (i * MAX_UDP_PAYLOAD)).take
        (min MAX_UDP_PAYLOAD (frame.length - i * MAX_UDP_PAYLOAD)) := by
    rw [show min ((frame.drop (i * MAX_UDP_PAYLOAD)).take
        (min MAX_UDP_PAYLOAD (frame.length - i * MAX_UDP_PAYLOAD))).length
        (min MAX_UDP_PAYLOAD (frame.length - i * MAX_UDP_PAYLOAD)) =
        ((frame.drop (i * MAX_UDP_PAYLOAD)).take
          (min MAX_UDP_PAYLOAD (frame.length - i * MAX_UDP_PAYLOAD))).length by
      rw [List.length_take, List.length_drop, hP]; omega]
    exact List.take_length _
  rw [htk]
  rw [dataOf_snoc frame n i done hn hi, receivedOf_snoc n i done hi]
  by_cases hc : done.length + 1 = n
  · rw [if_pos hc, if_pos hc, hkey]
  · rw [if_neg hc, if_neg hc, List.length_append]
    rfl

/-- Feeding the remaining fragments `is` (a permutation complement of `done`
in `range n`) into the reassembler: every call but the last returns nothing
and the last returns the fully reassembled frame. -/
theorem processList_from (frame : List Nat) (seq ts : Nat) (isKey : Bool) (n : Nat)
    (hn : n = (frame.length + MAX_UDP_PAYLOAD - 1) / MAX_UDP_PAYLOAD) :
    ∀ (is done : List Nat) (stats : FrameReassembler.Stats),
      is ≠ [] →
      (done ++ is).Perm (List.range n) →
      FrameReassembler.processList
          ⟨some (pendingOf frame seq ts (if isKey then 1 else 0) n done), stats⟩
          (is.map (mkVideoFragment frame frame.length seq ts isKey n)) =
        (List.replicate (is.length - 1) none ++
          [some { type := 0, sequenceNumber := seq, timestamp := ts, data := frame,
                  isKeyframe := isKey, sampleRate := 0, channels := 0 }],
         ⟨none, { stats with
             packetsReceived := stats.packetsReceived + is.length
             framesCompleted := stats.framesCompleted + 1 }⟩) := by
  intro is
  induction is with
  | nil => intro done stats hne _; exact absurd rfl hne
  | cons i rest ih =>
    intro done stats hne hperm
    have hnodup : (done ++ i :: rest).Nodup :=
      hperm.nodup_iff.mpr (List.nodup_range n)
    have hi : i < n := by
      have hm : i ∈ List.range n := hperm.mem_iff.mp (by simp)
      simpa using hm
    have hnotin : i ∉ done := by
      intro hmem
      exact (List.nodup_append.mp hnodup).2.2 hmem (by simp)
    rw [List.map_cons]
    unfold FrameReassembler.processList
    dsimp only
    rw [addPacket_pendingOf frame seq ts isKey n i done stats hn hi hnotin]
    by_cases hc : done.length + 1 = n
    · have hrest : rest = [] := by
        have hl := hperm.length_eq
        simp [List.length_append, List.length_range] at hl
        exact List.length_eq_zero.mp (by omega)
      subst hrest
      rw [if_pos hc]
      unfold FrameReassembler.processList
      dsimp only
      have hmem : ∀ j, j < n → j ∈ done ++ [i] := by
        intro j hj
        exact hperm.mem_iff.mpr (by simpa using hj)
      rw [dataOf_full frame n (done ++ [i]) hn hmem]
      simp
    · rw [if_neg hc]
      have hperm' : ((done ++ [i]) ++ rest).Perm (List.range n) := by
        rw [List.append_assoc]; exact hperm
      have hne' : rest ≠ [] := by
        intro h
        subst h
        have hl := hperm.length_eq
        simp [List.length_append, List.length_range] at hl
        exact hc (by omega)
      rw [ih (done ++ [i]) _ hne' hperm']
      have hrpos : 0 < rest.length := List.length_pos.mpr hne'
      obtain ⟨k, hk⟩ : ∃ k, rest.length = k + 1 := ⟨rest.length - 1, by omega⟩
      dsimp only
      refine congrArg₂ Prod.mk ?_ ?_
      · simp only [List.length_cons]
        rw [hk]
        rfl
      · refine congrArg₂ ReassemblerState.mk rfl ?_
        simp only [FrameReassembler.Stats.mk.injEq, List.length_cons]
        exact ⟨trivial, trivial, by omega, trivial, trivial, trivial⟩

/-- The first fragment to arrive finds no pending frame; creating the pending
frame and processing from the empty bitset coincide. -/
theorem addPacket_none (frame : List Nat) (seq ts : Nat) (isKey : Bool) (n i : Nat)
    (stats : FrameReassembler.Stats) :
    FrameReassembler.addPacket ⟨none, stats⟩
        (mkVideoFragment frame frame.length seq ts isKey n i).1
        (mkVideoFragment frame frame.length seq ts isKey n i).2 =
      FrameReassembler.addPacket
        ⟨some (pendingOf frame seq ts (if isKey then 1 else 0) n []), stats⟩
        (mkVideoFragment frame frame.length seq ts isKey n i).1
        (mkVideoFragment frame frame.length seq ts isKey n i).2 := by
  unfold FrameReassembler.addPacket
  dsimp only
  rw [if_pos (show (pendingOf frame seq ts (if isKey then 1 else 0) n []).sequenceNumber =
      (mkVideoFragment frame frame.length seq ts isKey n i).1.sequenceNumber from rfl),
    startFrame_mkFragment]

/-- C3 — Reassembly under permutation: for every non-empty frame cut into its
`n` datagrams by the sender and every order in which those `n` distinct
fragments reach `FrameReassembler::addPacket`, the first `n − 1` calls return
nothing and the `n`-th call returns exactly one completed frame whose data is
byte-identical to the original frame (with the sequence number, timestamp and
keyframe flag of the fragments). -/
theorem reassembly_under_permutation (frame : List Nat) (seq ts : Nat)
    (isKey : Bool) (stats : FrameReassembler.Stats)
    (order : List (PacketHeader × List Nat))
    (hpos : 0 < frame.length) (hlen : frame.length < 2^32)
    (hfrag : (frame.length + MAX_UDP_PAYLOAD - 1) / MAX_UDP_PAYLOAD < 2^16)
    (hperm : order.Perm (videoFragments frame seq ts isKey)) :
    FrameReassembler.processList ⟨none, stats⟩ order =
      (List.replicate (order.length - 1) none ++
        [some { type := 0, sequenceNumber := seq, timestamp := ts, data := frame,
                isKeyframe := isKey, sampleRate := 0, channels := 0 }],
       ⟨none, { stats with
           packetsReceived := stats.packetsReceived + order.length
           framesCompleted := stats.framesCompleted + 1 }⟩) := by
  have hP : MAX_UDP_PAYLOAD = 1162 := rfl
  have hsz : frame.length % 2^32 = frame.length := Nat.mod_eq_of_lt hlen
  have hcalc : Protocol.calculateFragmentCount frame.length =
      (frame.length + MAX_UDP_PAYLOAD - 1) / MAX_UDP_PAYLOAD := by
    unfold Protocol.calculateFragmentCount
    exact Nat.mod_eq_of_lt hfrag
  set n := (frame.length + MAX_UDP_PAYLOAD - 1) / MAX_UDP_PAYLOAD with hnd
  unfold videoFragments at hperm
  rw [hsz, hcalc] at hperm
  have horder : order = (order.map (fun p => p.1.fragmentIndex)).map
      (mkVideoFragment frame frame.length seq ts isKey n) := by
    rw [List.map_map]
    conv_lhs => rw [← List.map_id order]
    apply List.map_congr_left
    intro p hp
    obtain ⟨i, hi, hpi⟩ := List.mem_map.mp (hperm.mem_iff.mp hp)
    rw [← hpi]
    rfl
  have hisperm : (order.map (fun p => p.1.fragmentIndex)).Perm (List.range n) := by
    have h2 := hperm.map (fun p => p.1.fragmentIndex)
    rw [List.map_map] at h2
    have h3 : (List.range n).map ((fun p => p.1.fragmentIndex) ∘
        mkVideoFragment frame frame.length seq ts isKey n) = List.range n := by
      conv_rhs => rw [← List.map_id (List.range n)]
      exact List.map_congr_left (fun j _ => rfl)
    rw [h3] at h2
    exact h2
  have hn1 : 0 < n := by rw [hnd, hP]; omega
  have hne : order.map (fun p => p.1.fragmentIndex) ≠ [] := by
    intro h
    have h0 : order = [] := List.map_eq_nil_iff.mp h
    subst h0
    have hl := hisperm.length_eq
    simp at hl
    omega
  rcases horder' : order.map (fun p => p.1.fragmentIndex) with _ | ⟨i0, rest⟩
  · exact absurd horder' hne
  · have hol : order.length = (i0 :: rest).length := by
      rw [← horder', List.length_map]
    have hisperm' : (([] : List Nat) ++ (i0 :: rest)).Perm (List.range n) := by
      rw [List.nil_append, ← horder']
      exact hisperm
    have hbridge : FrameReassembler.processList ⟨none, stats⟩
        ((i0 :: rest).map (mkVideoFragment frame frame.length seq ts isKey n)) =
        FrameReassembler.processList
          ⟨some (pendingOf frame seq ts (if isKey then 1 else 0) n []), stats⟩
          ((i0 :: rest).map (mkVideoFragment frame frame.length seq ts isKey n)) := by
      rw [List.map_cons]
      unfold FrameReassembler.processList
      rw [addPacket_none frame seq ts isKey n i0 stats]
    conv_lhs => rw [horder, horder']
    rw [hbridge,
      processList_from frame seq ts isKey n hnd (i0 :: rest) [] stats
        (by simp) hisperm', hol]

/-- C3 witness: a 1163-byte frame splits into two fragments; delivering them
in reversed order yields no frame on the first call and the byte-identical
frame on the second. -/
theorem reassembly_under_permutation_witness :
    FrameReassembler.processList ⟨none, ⟨0, 0, 0, 0, 0, 0⟩⟩
        ((videoFragments (List.replicate 1163 7) 5 0 true).reverse) =
      (List.replicate
          (((videoFragments (List.replicate 1163 7) 5 0 true).reverse).length - 1) none ++
        [some { type := 0, sequenceNumber := 5, timestamp := 0,
                data := List.replicate 1163 7, isKeyframe := true,
                sampleRate := 0, channels := 0 }],
       ⟨none, { (⟨0, 0, 0, 0, 0, 0⟩ : FrameReassembler.Stats) with
           packetsReceived :=
             (⟨0, 0, 0, 0, 0, 0⟩ : FrameReassembler.Stats).packetsReceived +
               ((videoFragments (List.replicate 1163 7) 5 0 true).reverse).length
           framesCompleted :=
             (⟨0, 0, 0, 0, 0, 0⟩ : FrameReassembler.Stats).framesCompleted + 1 }⟩) :=
  reassembly_under_permutation (List.replicate 1163 7) 5 0 true ⟨0, 0, 0, 0, 0, 0⟩
    ((videoFragments (List.replicate 1163 7) 5 0 true).reverse)
    (by norm_num) (by norm_num)
    (by norm_num [MAX_UDP_PAYLOAD, DEFAULT_MTU, HEADER_SIZE])
    (List.reverse_perm _)

end NdiBridge
